import Mathlib

/-!
Verification of the scene-driven fixed-timestep game loop in src/game.js
(the "Crystals of the Canopy" variant: dynamic full-window resolution).

The JavaScript source is shallowly embedded: the mutable closure state of
the program (current scene, the game scene's player/coins/score, the
Math.random stream position, the pressed-key set) is collected in a
`World` record, and every function of the source becomes a pure function
from `World` to `World`.  Hook invocations performed by `setScene` are
additionally logged in a trace of `HookEvent`s so that invocation order
is observable.  Numbers are modelled as real numbers (the source uses
JS doubles, including Math.hypot's square root); the frame-time
accumulator, which only ever adds and subtracts rationals, is modelled
over the rationals.
-/

namespace Canopy

/-- The three scene names held in the `scenes` registry of game.js. -/
inductive Scene
  | menu
  | game
  | pause
deriving DecidableEq

/-- An axis-aligned rectangle with the field layout used by
`rectsOverlap(a, b)` in game.js: top-left corner x/y, width w, height h.
Both the player and the coins have this shape. -/
structure Rect where
  x : ℝ
  y : ℝ
  w : ℝ
  h : ℝ

/-- The mutable closure state of `createGameScene()`: the player record
(position, size, speed; the color string is a pure display attribute and
is not modelled), the `coins` array and the `score` counter. -/
structure GameSceneState where
  px : ℝ
  py : ℝ
  pw : ℝ
  ph : ℝ
  speed : ℝ
  coins : List Rect
  score : ℕ

/-- The pressed-key flags read by the scenes via `input.keys.has(...)`,
one field per key name the source tests, plus `input.mouse.down`. -/
structure Keys where
  arrowRight : Bool
  keyD : Bool
  arrowLeft : Bool
  keyA : Bool
  arrowDown : Bool
  keyS : Bool
  arrowUp : Bool
  keyW : Bool
  enterKey : Bool
  escape : Bool
  mouseDown : Bool

/-- The whole program state: `current` scene name, the game scene's
closure state `g`, the dynamic world dimensions WIDTH/HEIGHT, the
Math.random stream `rs` together with the index `ri` of the next value
to be consumed, and the pressed-key set. -/
structure World where
  current : Scene
  g : GameSceneState
  width : ℝ
  height : ℝ
  rs : ℕ → ℝ
  ri : ℕ
  keys : Keys

/-- One hook invocation performed by `setScene`. -/
inductive HookEvent
  | exitHook (s : Scene)
  | enterHook (s : Scene)
deriving DecidableEq

/-- JS boolean-to-number coercion used in
`(keys.has(R) || keys.has(d)) - (keys.has(L) || keys.has(a))`. -/
def b2i (b : Bool) : ℤ := if b then 1 else 0

/-- The `ax` input axis of `update(dt)` in `createGameScene`. -/
def axOf (k : Keys) : ℤ :=
  b2i (k.arrowRight || k.keyD) - b2i (k.arrowLeft || k.keyA)

/-- The `ay` input axis of `update(dt)` in `createGameScene`. -/
def ayOf (k : Keys) : ℤ :=
  b2i (k.arrowDown || k.keyS) - b2i (k.arrowUp || k.keyW)

/-- JS `x || 1` for a number `x`: 0 is falsy, any other value is kept
(the guard in `const len = Math.hypot(ax, ay) || 1`). -/
noncomputable def jsOrOne (x : ℝ) : ℝ := if x = 0 then 1 else x

/-- `Math.hypot(a, b)`. -/
noncomputable def hypot (a b : ℝ) : ℝ := Real.sqrt (a ^ 2 + b ^ 2)

/-- `const len = Math.hypot(ax, ay) || 1`. -/
noncomputable def lenOf (ax ay : ℤ) : ℝ := jsOrOne (hypot (ax : ℝ) (ay : ℝ))

/-- The x displacement `(ax / len) * player.speed * dt` added to
`player.x` in one game-scene update. -/
noncomputable def dispX (k : Keys) (speed dt : ℝ) : ℝ :=
  ((axOf k : ℝ) / lenOf (axOf k) (ayOf k)) * speed * dt

/-- The y displacement `(ay / len) * player.speed * dt` added to
`player.y` in one game-scene update. -/
noncomputable def dispY (k : Keys) (speed dt : ℝ) : ℝ :=
  ((ayOf k : ℝ) / lenOf (axOf k) (ayOf k)) * speed * dt

/-- `rectsOverlap(a, b)` from game.js: open-interval AABB intersection
(all four comparisons strict). -/
def rectsOverlap (a b : Rect) : Prop :=
  a.x < b.x + b.w ∧ a.x + a.w > b.x ∧ a.y < b.y + b.h ∧ a.y + a.h > b.y

noncomputable instance (a b : Rect) : Decidable (rectsOverlap a b) := by
  unfold rectsOverlap; infer_instance

/-- The coin-collection loop of `update(dt)`: iterate `i` from
`coins.length - 1` down to `0`, splice out each coin overlapping the
player and add 10 to the score.  The recursion processes the tail (the
higher indices) first, exactly as the reverse iteration does; the
returned pair is (remaining coins in order, total score gained). -/
noncomputable def collectLoop (p : Rect) : List Rect → List Rect × ℕ
  | [] => ([], 0)
  | c :: rest =>
    if rectsOverlap p c then
      ((collectLoop p rest).1, (collectLoop p rest).2 + 10)
    else
      (c :: (collectLoop p rest).1, (collectLoop p rest).2)

/-- The loop body of `spawnCoins(n)`: `n` pushes of
`{x: Math.random() * (WIDTH - 16), y: Math.random() * (HEIGHT - 16),
w: 12, h: 12}`, consuming two stream values per coin starting at
stream index `i` (x first, then y, in source order). -/
noncomputable def spawnCoinsAux (rs : ℕ → ℝ) (W H : ℝ) : ℕ → ℕ → List Rect
  | _, 0 => []
  | i, n + 1 =>
    ⟨rs i * (W - 16), rs (i + 1) * (H - 16), 12, 12⟩ ::
      spawnCoinsAux rs W H (i + 2) n

/-- `spawnCoins(n)` returning the fresh coin array together with the
index of the next unconsumed random value. -/
noncomputable def spawnCoins (rs : ℕ → ℝ) (W H : ℝ) (i n : ℕ) :
    List Rect × ℕ :=
  (spawnCoinsAux rs W H i n, i + 2 * n)

/-- The game scene's `enter()`: `coins = spawnCoins(10); score = 0;
player.x = WIDTH / 2; player.y = HEIGHT / 2;`. -/
noncomputable def gameEnter (w : World) : World :=
  { w with
    g := { w.g with
      coins := (spawnCoins w.rs w.width w.height w.ri 10).1
      score := 0
      px := w.width / 2
      py := w.height / 2 }
    ri := (spawnCoins w.rs w.width w.height w.ri 10).2 }

/-- Dispatch of `scenes[name].enter?.()`: the menu and pause scenes have
empty `enter() {}` bodies, the game scene's enter resets its state. -/
noncomputable def sceneEnter : Scene → World → World
  | .game, w => gameEnter w
  | _, w => w

/-- Dispatch of `scenes[name].exit?.()`: all three scenes have empty
`exit() {}` bodies. -/
def sceneExit : Scene → World → World := fun _ w => w

/-- `setScene(name)` from game.js: no-op when the target equals the
current scene, otherwise exit hook of the old scene, update of
`current`, enter hook of the new scene.  The second component records
the hooks invoked, in invocation order.  (The trailing
`stateEl.textContent = current` is output to the external status
display and carries no program state.) -/
noncomputable def setScene (target : Scene) (w : World) :
    World × List HookEvent :=
  if target = w.current then (w, [])
  else
    (sceneEnter target { sceneExit w.current w with current := target },
     [HookEvent.exitHook w.current, HookEvent.enterHook target])

/-- The player rectangle after the movement-and-clamp part of the game
scene's `update(dt)`: position advanced by the normalized displacement,
then `Math.max(0, Math.min(WIDTH - w, x))` / the same for y. -/
noncomputable def movedPlayerRect (dt : ℝ) (w : World) : Rect :=
  ⟨max 0 (min (w.width - w.g.pw) (w.g.px + dispX w.keys w.g.speed dt)),
   max 0 (min (w.height - w.g.ph) (w.g.py + dispY w.keys w.g.speed dt)),
   w.g.pw, w.g.ph⟩

/-- The game scene's `update(dt)`: move and clamp the player, run the
coin-collection loop, then `if (input.keys.has('Escape'))
setScene('pause')` followed by `if (coins.length === 0)
setScene('menu')`. -/
noncomputable def gameUpdate (dt : ℝ) (w : World) : World × List HookEvent :=
  let p := movedPlayerRect dt w
  let col := collectLoop p w.g.coins
  let w1 : World :=
    { w with g := { w.g with
        px := p.x
        py := p.y
        coins := col.1
        score := w.g.score + col.2 } }
  let r2 := if w.keys.escape then setScene .pause w1 else (w1, [])
  let r3 := if col.1.length = 0 then setScene .menu r2.1 else (r2.1, [])
  (r3.1, r2.2 ++ r3.2)

/-- The menu scene's `update(dt)`:
`if (input.keys.has('Enter') || input.mouse.down) setScene('game')`. -/
noncomputable def menuUpdate (dt : ℝ) (w : World) : World × List HookEvent :=
  if w.keys.enterKey || w.keys.mouseDown then setScene .game w else (w, [])

/-- The pause scene's `update(dt)`:
`if (input.keys.has('Escape')) setScene('game')`. -/
noncomputable def pauseUpdate (dt : ℝ) (w : World) : World × List HookEvent :=
  if w.keys.escape then setScene .game w else (w, [])

/-- One simulation step `scenes[current].update(dt)` as dispatched by the
fixed-step loop. -/
noncomputable def sceneUpdate (dt : ℝ) (w : World) : World × List HookEvent :=
  match w.current with
  | .menu => menuUpdate dt w
  | .game => gameUpdate dt w
  | .pause => pauseUpdate dt w

/-- `const FIXED_DT = 1000 / 60` (milliseconds). -/
def FIXED_DT : ℚ := 1000 / 60

/-- The fixed-step drain loop of `loop(now)`:
`while (accumulator >= FIXED_DT) { scenes[current].update(FIXED_DT / 1000);
accumulator -= FIXED_DT }`.  Returns the list of `dt` arguments passed to
`update` (one per executed step, in order) and the accumulator left over. -/
def fixedSteps (acc : ℚ) : List ℚ × ℚ :=
  if h : FIXED_DT ≤ acc then
    ((FIXED_DT / 1000) :: (fixedSteps (acc - FIXED_DT)).1,
     (fixedSteps (acc - FIXED_DT)).2)
  else ([], acc)
termination_by Nat.floor (acc / FIXED_DT)
decreasing_by
  have hFD : (0 : ℚ) < FIXED_DT := by norm_num [FIXED_DT]
  have h1 : (acc - FIXED_DT) / FIXED_DT = acc / FIXED_DT - 1 := by
    field_simp
  have h2 : 1 ≤ acc / FIXED_DT := (one_le_div hFD).mpr h
  have h3 : Nat.floor (acc / FIXED_DT - 1) = Nat.floor (acc / FIXED_DT) - 1 :=
    Nat.floor_sub_one _
  have h4 : 0 < Nat.floor (acc / FIXED_DT) := Nat.floor_pos.mpr h2
  rw [h1, h3]
  omega

/-! ## Helper lemmas -/

lemma FIXED_DT_pos : (0 : ℚ) < FIXED_DT := by norm_num [FIXED_DT]

/-- Closed form of the drain loop: starting from a nonnegative
accumulator `acc` whose step count is `n`, the loop runs `n` updates,
each with the constant argument `FIXED_DT / 1000`, and leaves
`acc - n * FIXED_DT`. -/
lemma fixedSteps_eval (n : ℕ) :
    ∀ acc : ℚ, 0 ≤ acc → Nat.floor (acc / FIXED_DT) = n →
      fixedSteps acc =
        (List.replicate n (FIXED_DT / 1000), acc - n * FIXED_DT) := by
  induction n with
  | zero =>
    intro acc h0 hf
    have hlt : acc < FIXED_DT :=
      (div_lt_one FIXED_DT_pos).mp (Nat.floor_eq_zero.mp hf)
    rw [fixedSteps, dif_neg (not_le.mpr hlt)]
    simp
  | succ n ih =>
    intro acc h0 hf
    have h1 : 1 ≤ acc / FIXED_DT := by
      by_contra hlt
      push_neg at hlt
      rw [Nat.floor_eq_zero.mpr hlt] at hf
      omega
    have hge : FIXED_DT ≤ acc := (one_le_div FIXED_DT_pos).mp h1
    have hdiv : (acc - FIXED_DT) / FIXED_DT = acc / FIXED_DT - 1 := by
      rw [sub_div, div_self (ne_of_gt FIXED_DT_pos)]
    have hsub : Nat.floor ((acc - FIXED_DT) / FIXED_DT) = n := by
      rw [hdiv, Nat.floor_sub_one, hf]
      omega
    rw [fixedSteps, dif_pos hge, ih (acc - FIXED_DT) (by linarith) hsub]
    simp only [Prod.mk.injEq, List.replicate_succ]
    constructor
    · trivial
    · push_cast
      ring

lemma sceneEnter_of_ne_game {t : Scene} (ht : t ≠ Scene.game) (w : World) :
    sceneEnter t w = w := by
  cases t with
  | game => exact absurd rfl ht
  | menu => rfl
  | pause => rfl

lemma setScene_current (t : Scene) (w : World) :
    (setScene t w).1.current = t := by
  unfold setScene
  split
  · next h => simp [← h]
  · cases t <;> rfl

lemma setScene_g_of_ne_game {t : Scene} (ht : t ≠ Scene.game) (w : World) :
    (setScene t w).1.g = w.g := by
  unfold setScene
  split
  · rfl
  · simp only [sceneEnter_of_ne_game ht]
    rfl

lemma setScene_of_ne {t : Scene} {w : World} (h : t ≠ w.current) :
    setScene t w =
      (sceneEnter t { sceneExit w.current w with current := t },
       [HookEvent.exitHook w.current, HookEvent.enterHook t]) := by
  unfold setScene
  rw [if_neg h]

/-- The game-scene update leaves the game state exactly as the
move/collect phase produced it: every transition it can perform targets
pause or menu, whose enter hooks are empty. -/
lemma gameUpdate_g (dt : ℝ) (w : World) :
    (gameUpdate dt w).1.g =
      { w.g with
        px := (movedPlayerRect dt w).x
        py := (movedPlayerRect dt w).y
        coins := (collectLoop (movedPlayerRect dt w) w.g.coins).1
        score := w.g.score + (collectLoop (movedPlayerRect dt w) w.g.coins).2 } := by
  simp only [gameUpdate]
  split_ifs <;>
    simp [setScene_g_of_ne_game (t := Scene.menu) (by decide),
      setScene_g_of_ne_game (t := Scene.pause) (by decide)]

lemma spawnCoinsAux_length (rs : ℕ → ℝ) (W H : ℝ) :
    ∀ n i, (spawnCoinsAux rs W H i n).length = n := by
  intro n
  induction n with
  | zero => intro i; rfl
  | succ n ih => intro i; simp [spawnCoinsAux, ih]

lemma spawnCoinsAux_mem_bounds (rs : ℕ → ℝ) (W H : ℝ)
    (hW : 16 ≤ W) (hH : 16 ≤ H) (hrs : ∀ n, 0 ≤ rs n ∧ rs n < 1) :
    ∀ n i c, c ∈ spawnCoinsAux rs W H i n →
      0 ≤ c.x ∧ c.x ≤ W - c.w ∧ 0 ≤ c.y ∧ c.y ≤ H - c.h ∧
        c.w = 12 ∧ c.h = 12 := by
  intro n
  induction n with
  | zero => intro i c hc; simp [spawnCoinsAux] at hc
  | succ n ih =>
    intro i c hc
    rw [spawnCoinsAux, List.mem_cons] at hc
    rcases hc with hc | hc
    · subst hc
      refine ⟨mul_nonneg (hrs i).1 (by linarith), ?_,
        mul_nonneg (hrs (i + 1)).1 (by linarith), ?_, rfl, rfl⟩
      · have := mul_le_of_le_one_left (b := W - 16)
          (by linarith) (le_of_lt (hrs i).2)
        simp only
        linarith
      · have := mul_le_of_le_one_left (b := H - 16)
          (by linarith) (le_of_lt (hrs (i + 1)).2)
        simp only
        linarith
    · exact ih (i + 2) c hc

/-! ## Claims -/

/-- Claim C2: for a previous accumulator value a with 0 <= a < FIXED_DT
and any elapsed time e >= 0 added in one frame, the fixed-step loop
executes exactly floor((a + e) / FIXED_DT) simulation steps, each with
the constant update argument FIXED_DT / 1000, and the accumulator left
afterwards is >= 0 and < FIXED_DT; no accumulated time is dropped:
the incoming time a + e equals steps * FIXED_DT plus the remainder. -/
theorem fixed_step_loop_spec (a e : ℚ) (ha0 : 0 ≤ a) (ha1 : a < FIXED_DT)
    (he : 0 ≤ e) :
    (fixedSteps (a + e)).1 =
      List.replicate (Nat.floor ((a + e) / FIXED_DT)) (FIXED_DT / 1000) ∧
    (fixedSteps (a + e)).1.length = Nat.floor ((a + e) / FIXED_DT) ∧
    0 ≤ (fixedSteps (a + e)).2 ∧
    (fixedSteps (a + e)).2 < FIXED_DT ∧
    a + e = (Nat.floor ((a + e) / FIXED_DT) : ℚ) * FIXED_DT +
      (fixedSteps (a + e)).2 := by
  have h0 : (0 : ℚ) ≤ a + e := by linarith
  have heval := fixedSteps_eval (Nat.floor ((a + e) / FIXED_DT)) (a + e) h0 rfl
  have hlow : (Nat.floor ((a + e) / FIXED_DT) : ℚ) * FIXED_DT ≤ a + e := by
    have h1 : (Nat.floor ((a + e) / FIXED_DT) : ℚ) ≤ (a + e) / FIXED_DT :=
      Nat.floor_le (div_nonneg h0 (le_of_lt FIXED_DT_pos))
    calc (Nat.floor ((a + e) / FIXED_DT) : ℚ) * FIXED_DT
        ≤ (a + e) / FIXED_DT * FIXED_DT := by
          exact mul_le_mul_of_nonneg_right h1 (le_of_lt FIXED_DT_pos)
      _ = a + e := div_mul_cancel₀ _ (ne_of_gt FIXED_DT_pos)
  have hhigh : a + e < ((Nat.floor ((a + e) / FIXED_DT) : ℚ) + 1) * FIXED_DT := by
    have h2 : (a + e) / FIXED_DT < (Nat.floor ((a + e) / FIXED_DT) : ℚ) + 1 :=
      Nat.lt_floor_add_one _
    calc a + e = (a + e) / FIXED_DT * FIXED_DT :=
        (div_mul_cancel₀ _ (ne_of_gt FIXED_DT_pos)).symm
      _ < ((Nat.floor ((a + e) / FIXED_DT) : ℚ) + 1) * FIXED_DT :=
        mul_lt_mul_of_pos_right h2 FIXED_DT_pos
  rw [heval]
  refine ⟨rfl, List.length_replicate _ _, by linarith, by nlinarith, by ring⟩

/-- Witness for C2 at the concrete input a = 10, e = 40 (FIXED_DT is
50/3, so three steps run and 0 is left over). -/
theorem fixed_step_loop_spec_witness :
    (0 ≤ (10 : ℚ) ∧ (10 : ℚ) < FIXED_DT ∧ 0 ≤ (40 : ℚ)) ∧
    ((fixedSteps ((10 : ℚ) + 40)).1 =
      List.replicate (Nat.floor (((10 : ℚ) + 40) / FIXED_DT)) (FIXED_DT / 1000) ∧
    (fixedSteps ((10 : ℚ) + 40)).1.length =
      Nat.floor (((10 : ℚ) + 40) / FIXED_DT) ∧
    0 ≤ (fixedSteps ((10 : ℚ) + 40)).2 ∧
    (fixedSteps ((10 : ℚ) + 40)).2 < FIXED_DT ∧
    (10 : ℚ) + 40 = (Nat.floor (((10 : ℚ) + 40) / FIXED_DT) : ℚ) * FIXED_DT +
      (fixedSteps ((10 : ℚ) + 40)).2) :=
  ⟨⟨by norm_num, by norm_num [FIXED_DT], by norm_num⟩,
   fixed_step_loop_spec 10 40 (by norm_num) (by norm_num [FIXED_DT])
     (by norm_num)⟩

/-- Claim C3: the game scene's enter(), called on any state, leaves the
player at the world center, the score at 0, and a freshly generated
list of exactly 10 coins, each of size 12x12 and placed within the
world bounds minus the coin size; this holds for every call, so
repeated calls are idempotent in this postcondition.  The hypotheses
record that the world is at least 16 units in each dimension (the
spawn margin used by the source) and that the random stream yields
values in [0, 1), as Math.random does. -/
theorem gameEnter_postcondition (w : World)
    (hW : 16 ≤ w.width) (hH : 16 ≤ w.height)
    (hrs : ∀ n, 0 ≤ w.rs n ∧ w.rs n < 1) :
    (gameEnter w).g.px = w.width / 2 ∧
    (gameEnter w).g.py = w.height / 2 ∧
    (gameEnter w).g.score = 0 ∧
    (gameEnter w).g.coins.length = 10 ∧
    ∀ c ∈ (gameEnter w).g.coins,
      0 ≤ c.x ∧ c.x ≤ w.width - c.w ∧ 0 ≤ c.y ∧ c.y ≤ w.height - c.h ∧
        c.w = 12 ∧ c.h = 12 := by
  refine ⟨rfl, rfl, rfl, ?_, ?_⟩
  · exact spawnCoinsAux_length w.rs w.width w.height 10 w.ri
  · intro c hc
    exact spawnCoinsAux_mem_bounds w.rs w.width w.height hW hH hrs 10 w.ri c hc

/-- Witness for C3 at a concrete 800x600 world whose random stream is
constantly 1/2. -/
theorem gameEnter_postcondition_witness :
    (gameEnter (World.mk Scene.menu
        (GameSceneState.mk 0 0 24 24 180 [] 99) 800 600 (fun _ => 1 / 2) 0
        (Keys.mk false false false false false false false false false
          false false))).g.score = 0 ∧
    (gameEnter (World.mk Scene.menu
        (GameSceneState.mk 0 0 24 24 180 [] 99) 800 600 (fun _ => 1 / 2) 0
        (Keys.mk false false false false false false false false false
          false false))).g.coins.length = 10 :=
  ⟨(gameEnter_postcondition _ (by norm_num) (by norm_num)
      (fun n => ⟨by norm_num, by norm_num⟩)).2.2.1,
   (gameEnter_postcondition _ (by norm_num) (by norm_num)
      (fun n => ⟨by norm_num, by norm_num⟩)).2.2.2.1⟩

/-- Claim C4: after any game-scene update (any dt, any pressed-key
set), the player position satisfies 0 <= x <= worldWidth - playerWidth
and 0 <= y <= worldHeight - playerHeight.  The hypotheses record that
the player fits in the world, which the clamp
Math.max(0, Math.min(WIDTH - w, x)) needs for a nonempty range. -/
theorem player_clamped_in_bounds (w : World) (dt : ℝ)
    (hw : w.g.pw ≤ w.width) (hh : w.g.ph ≤ w.height) :
    0 ≤ (gameUpdate dt w).1.g.px ∧
    (gameUpdate dt w).1.g.px ≤ w.width - w.g.pw ∧
    0 ≤ (gameUpdate dt w).1.g.py ∧
    (gameUpdate dt w).1.g.py ≤ w.height - w.g.ph := by
  rw [gameUpdate_g]
  refine ⟨le_max_left _ _, ?_, le_max_left _ _, ?_⟩
  · exact max_le (by linarith) (min_le_left _ _)
  · exact max_le (by linarith) (min_le_left _ _)

/-- Witness for C4 at a concrete world: 800x600, 24x24 player. -/
theorem player_clamped_in_bounds_witness :
    0 ≤ (gameUpdate 1 (World.mk Scene.game
        (GameSceneState.mk 388 288 24 24 180 [] 0) 800 600 (fun _ => 0) 0
        (Keys.mk true false false false false false false false false
          false false))).1.g.px ∧
    (gameUpdate 1 (World.mk Scene.game
        (GameSceneState.mk 388 288 24 24 180 [] 0) 800 600 (fun _ => 0) 0
        (Keys.mk true false false false false false false false false
          false false))).1.g.px ≤
      (World.mk Scene.game
        (GameSceneState.mk 388 288 24 24 180 [] 0) 800 600 (fun _ => 0) 0
        (Keys.mk true false false false false false false false false
          false false)).width -
      (World.mk Scene.game
        (GameSceneState.mk 388 288 24 24 180 [] 0) 800 600 (fun _ => 0) 0
        (Keys.mk true false false false false false false false false
          false false)).g.pw := by
  have h := player_clamped_in_bounds (World.mk Scene.game
      (GameSceneState.mk 388 288 24 24 180 [] 0) 800 600 (fun _ => 0) 0
      (Keys.mk true false false false false false false false false
        false false)) 1 (by norm_num) (by norm_num)
  exact ⟨h.1, h.2.1⟩

/-- Claim C5: setScene(target) is a no-op (state unchanged, no hooks
invoked) when target equals the current scene; otherwise it invokes the
current scene's exit hook on the state, updates the current-scene
pointer, and invokes the new scene's enter hook on the result, the
hooks firing in exactly that order. -/
theorem setScene_transition_spec (w : World) (t : Scene) :
    (t = w.current → setScene t w = (w, [])) ∧
    (t ≠ w.current →
      (setScene t w).2 = [HookEvent.exitHook w.current, HookEvent.enterHook t] ∧
      (setScene t w).1.current = t ∧
      (setScene t w).1 =
        sceneEnter t { sceneExit w.current w with current := t }) := by
  constructor
  · intro h
    unfold setScene
    rw [if_pos h]
  · intro h
    rw [setScene_of_ne h]
    exact ⟨rfl, by rw [← setScene_of_ne h]; exact setScene_current t w, rfl⟩

/-- Witness for C5 at a concrete world in the menu scene: targeting
menu is a no-op, targeting game fires exit(menu) then enter(game). -/
theorem setScene_transition_spec_witness :
    setScene Scene.menu (World.mk Scene.menu
        (GameSceneState.mk 400 300 24 24 180 [] 0) 800 600 (fun _ => 0) 0
        (Keys.mk false false false false false false false false false
          false false)) =
      ((World.mk Scene.menu
        (GameSceneState.mk 400 300 24 24 180 [] 0) 800 600 (fun _ => 0) 0
        (Keys.mk false false false false false false false false false
          false false)), []) ∧
    (setScene Scene.game (World.mk Scene.menu
        (GameSceneState.mk 400 300 24 24 180 [] 0) 800 600 (fun _ => 0) 0
        (Keys.mk false false false false false false false false false
          false false))).2 =
      [HookEvent.exitHook Scene.menu, HookEvent.enterHook Scene.game] :=
  ⟨(setScene_transition_spec _ Scene.menu).1 rfl,
   ((setScene_transition_spec _ Scene.game).2 (by decide)).1⟩

lemma collectLoop_spec (p : Rect) (coins : List Rect) :
    (collectLoop p coins).1 =
      coins.filter (fun c => decide (¬ rectsOverlap p c)) ∧
    (collectLoop p coins).2 =
      10 * coins.countP (fun c => decide (rectsOverlap p c)) := by
  induction coins with
  | nil => simp [collectLoop]
  | cons c rest ih =>
    by_cases h : rectsOverlap p c <;>
      simp [collectLoop, h, List.filter_cons, List.countP_cons, ih.1, ih.2] <;>
      ring

/-- Claim C6: in a single game-scene update a coin is removed from the
collection if and only if it overlaps the moved player under the
open-interval AABB test (the remaining list is exactly the filter of
the non-overlapping coins), the score grows by exactly 10 per removed
coin, and rectangles that merely touch at an edge never count as
overlapping. -/
theorem coin_collection_spec (w : World) (dt : ℝ) :
    (gameUpdate dt w).1.g.coins =
      w.g.coins.filter
        (fun c => decide (¬ rectsOverlap (movedPlayerRect dt w) c)) ∧
    (gameUpdate dt w).1.g.score =
      w.g.score +
        10 * w.g.coins.countP
          (fun c => decide (rectsOverlap (movedPlayerRect dt w) c)) ∧
    (∀ a b : Rect,
      a.x + a.w = b.x ∨ b.x + b.w = a.x ∨ a.y + a.h = b.y ∨ b.y + b.h = a.y →
        ¬ rectsOverlap a b) := by
  refine ⟨?_, ?_, ?_⟩
  · rw [gameUpdate_g]
    exact (collectLoop_spec _ _).1
  · rw [gameUpdate_g]
    simp only
    rw [(collectLoop_spec _ _).2]
  · rintro a b h ⟨h1, h2, h3, h4⟩
    rcases h with h | h | h | h <;> linarith

/-- Witness for C6: the score/coin formula evaluated at a concrete
world whose single coin overlaps the player, and two 12x12 rectangles
touching along a vertical edge that do not overlap. -/
theorem coin_collection_spec_witness :
    (gameUpdate 0 (World.mk Scene.game
        (GameSceneState.mk 388 288 24 24 180 [Rect.mk 400 300 12 12] 0)
        800 600 (fun _ => 0) 0
        (Keys.mk false false false false false false false false false
          false false))).1.g.score =
      (World.mk Scene.game
        (GameSceneState.mk 388 288 24 24 180 [Rect.mk 400 300 12 12] 0)
        800 600 (fun _ => 0) 0
        (Keys.mk false false false false false false false false false
          false false)).g.score +
        10 * (World.mk Scene.game
          (GameSceneState.mk 388 288 24 24 180 [Rect.mk 400 300 12 12] 0)
          800 600 (fun _ => 0) 0
          (Keys.mk false false false false false false false false false
            false false)).g.coins.countP
          (fun c => decide (rectsOverlap (movedPlayerRect 0 (World.mk Scene.game
            (GameSceneState.mk 388 288 24 24 180 [Rect.mk 400 300 12 12] 0)
            800 600 (fun _ => 0) 0
            (Keys.mk false false false false false false false false false
              false false))) c)) ∧
    ¬ rectsOverlap (Rect.mk 0 0 12 12) (Rect.mk 12 0 12 12) :=
  ⟨(coin_collection_spec _ 0).2.1,
   (coin_collection_spec (World.mk Scene.game
      (GameSceneState.mk 388 288 24 24 180 [Rect.mk 400 300 12 12] 0)
      800 600 (fun _ => 0) 0
      (Keys.mk false false false false false false false false false
        false false)) 0).2.2 _ _ (Or.inl (by norm_num))⟩

/-- Claim C7: the movement vector is normalized: with diagonal input
(ax = ay = 1, e.g. right+down pressed) the displacement over dt has
magnitude speed * dt, not speed * sqrt 2 * dt; and with zero input on
both axes the guarded divisor Math.hypot(ax, ay) || 1 equals 1 (no
division by zero) and the displacement is zero, so the player does not
move. -/
theorem movement_normalization (k : Keys) (speed dt : ℝ)
    (hs : 0 ≤ speed) (hdt : 0 ≤ dt) :
    (axOf k = 1 → ayOf k = 1 →
      Real.sqrt (dispX k speed dt ^ 2 + dispY k speed dt ^ 2) = speed * dt) ∧
    (axOf k = 0 → ayOf k = 0 →
      lenOf (axOf k) (ayOf k) = 1 ∧
      dispX k speed dt = 0 ∧ dispY k speed dt = 0) := by
  constructor
  · intro hx hy
    have h2 : (0 : ℝ) < Real.sqrt 2 := Real.sqrt_pos.mpr (by norm_num)
    have hlen : lenOf (axOf k) (ayOf k) = Real.sqrt 2 := by
      rw [hx, hy]
      unfold lenOf hypot jsOrOne
      rw [if_neg]
      · norm_num
      · push_cast
        norm_num
    have hsq : Real.sqrt 2 ^ 2 = 2 := Real.sq_sqrt (by norm_num)
    have hdx : dispX k speed dt = 1 / Real.sqrt 2 * speed * dt := by
      unfold dispX
      rw [hlen, hx]
      push_cast
      ring
    have hdy : dispY k speed dt = 1 / Real.sqrt 2 * speed * dt := by
      unfold dispY
      rw [hlen, hy]
      push_cast
      ring
    have hsum : dispX k speed dt ^ 2 + dispY k speed dt ^ 2 =
        (speed * dt) ^ 2 := by
      rw [hdx, hdy]
      field_simp
    rw [hsum, Real.sqrt_sq (mul_nonneg hs hdt)]
  · intro hx hy
    have hlen : lenOf (axOf k) (ayOf k) = 1 := by
      rw [hx, hy]
      unfold lenOf hypot jsOrOne
      rw [if_pos]
      push_cast
      norm_num
    refine ⟨hlen, ?_, ?_⟩
    · unfold dispX
      rw [hx]
      push_cast
      ring
    · unfold dispY
      rw [hy]
      push_cast
      ring

/-- Witness for C7: right+down pressed with speed 180 and dt 1/60
gives displacement magnitude 180 * (1/60); with no keys pressed the
divisor is 1 and the displacement vanishes. -/
theorem movement_normalization_witness :
    Real.sqrt
      (dispX (Keys.mk true false false false true false false false false
          false false) 180 (1 / 60) ^ 2 +
        dispY (Keys.mk true false false false true false false false false
          false false) 180 (1 / 60) ^ 2) = 180 * (1 / 60) ∧
    (lenOf (axOf (Keys.mk false false false false false false false false
        false false false))
      (ayOf (Keys.mk false false false false false false false false
        false false false)) = 1 ∧
     dispX (Keys.mk false false false false false false false false
        false false false) 180 (1 / 60) = 0 ∧
     dispY (Keys.mk false false false false false false false false
        false false false) 180 (1 / 60) = 0) :=
  ⟨(movement_normalization _ 180 (1 / 60) (by norm_num) (by norm_num)).1
      (by decide) (by decide),
   (movement_normalization _ 180 (1 / 60) (by norm_num) (by norm_num)).2
      (by decide) (by decide)⟩

/-! ## Concrete worlds used in scenarios, counterexamples and witnesses -/

/-- No key pressed, mouse up. -/
def kNone : Keys :=
  Keys.mk false false false false false false false false false false false

/-- Only Enter pressed. -/
def kEnter : Keys :=
  Keys.mk false false false false false false false false true false false

/-- Only Escape pressed. -/
def kEsc : Keys :=
  Keys.mk false false false false false false false false false true false

/-- A Math.random stream that always yields 0. -/
noncomputable def zeroRs : ℕ → ℝ := fun _ => 0

/-- The world of the C8 scenario: 800x600, player at (388, 288) of size
24x24, a single coin at (400, 300) of size 12x12, score 0, no keys
pressed, game scene current. -/
noncomputable def c8w : World :=
  World.mk Scene.game
    (GameSceneState.mk 388 288 24 24 180 [Rect.mk 400 300 12 12] 0)
    800 600 zeroRs 0 kNone

/-- Claim C8: in the 800x600 world with the player at (388, 288) of
size 24x24 and a single overlapping coin at (400, 300) of size 12x12,
one game-scene update with no keys pressed empties the coin list, sets
the score to 10 and, the coin count being 0, transitions the current
scene to menu. -/
theorem scenario_collect_last_coin :
    (sceneUpdate (1 / 60) c8w).1.g.coins = [] ∧
    (sceneUpdate (1 / 60) c8w).1.g.score = 10 ∧
    (sceneUpdate (1 / 60) c8w).1.current = Scene.menu := by
  norm_num [sceneUpdate, c8w, kNone, zeroRs, gameUpdate, movedPlayerRect,
    dispX, dispY, axOf, ayOf, b2i, lenOf, jsOrOne, hypot, collectLoop,
    rectsOverlap, setScene, sceneEnter, sceneExit, min_def, max_def,
    show Scene.menu ≠ Scene.game from by decide]

/-- The Math.random stream of the C1 run: the first two values are 1/2
(placing the first spawned coin at (392, 292), overlapping the centred
player), all later values are 0. -/
noncomputable def c1rs : ℕ → ℝ := fun n => if n < 2 then 1 / 2 else 0

/-- C1 chain, start: menu scene with Enter pressed; the game closure
state holds junk (empty coins, score 99) that the first enter() must
replace. -/
noncomputable def c1w0 : World :=
  World.mk Scene.menu (GameSceneState.mk 0 0 24 24 180 [] 99)
    800 600 c1rs 0 kEnter

/-- C1 chain after step 1 (menu update with Enter): in the game scene. -/
noncomputable def c1w1 : World := (sceneUpdate (1 / 60) c1w0).1

/-- C1 chain after step 2 (game update, no keys): the coin spawned on
the player has been collected, score is 10. -/
noncomputable def c1w2 : World :=
  (sceneUpdate (1 / 60) { c1w1 with keys := kNone }).1

/-- C1 chain after step 3 (game update with Escape): pause entered with
score 10 and nine coins left. -/
noncomputable def c1w3 : World :=
  (sceneUpdate (1 / 60) { c1w2 with keys := kEsc }).1

/-- C1 chain after step 4 (pause update with Escape): back in the game
scene. -/
noncomputable def c1w4 : World :=
  (sceneUpdate (1 / 60) { c1w3 with keys := kEsc }).1

lemma c1w1_eval :
    c1w1 = World.mk Scene.game
      (GameSceneState.mk 400 300 24 24 180
        (Rect.mk 392 292 12 12 :: List.replicate 9 (Rect.mk 0 0 12 12)) 0)
      800 600 c1rs 20 kEnter := by
  norm_num [c1w1, c1w0, sceneUpdate, menuUpdate, kEnter, setScene,
    sceneEnter, sceneExit, gameEnter, spawnCoins, spawnCoinsAux, c1rs,
    List.replicate, show Scene.game ≠ Scene.menu from by decide]

lemma c1w2_eval :
    c1w2 = World.mk Scene.game
      (GameSceneState.mk 400 300 24 24 180
        (List.replicate 9 (Rect.mk 0 0 12 12)) 10)
      800 600 c1rs 20 kNone := by
  rw [c1w2, c1w1_eval]
  norm_num [sceneUpdate, gameUpdate, movedPlayerRect, dispX, dispY, axOf,
    ayOf, b2i, lenOf, jsOrOne, hypot, collectLoop, rectsOverlap, kNone,
    List.replicate, min_def, max_def]

lemma c1w3_eval :
    c1w3 = World.mk Scene.pause
      (GameSceneState.mk 400 300 24 24 180
        (List.replicate 9 (Rect.mk 0 0 12 12)) 10)
      800 600 c1rs 20 kEsc := by
  rw [c1w3, c1w2_eval]
  norm_num [sceneUpdate, gameUpdate, movedPlayerRect, dispX, dispY, axOf,
    ayOf, b2i, lenOf, jsOrOne, hypot, collectLoop, rectsOverlap, kEsc,
    setScene, sceneEnter, sceneExit, List.replicate, min_def, max_def,
    show Scene.pause ≠ Scene.game from by decide]

lemma c1w4_eval :
    c1w4 = World.mk Scene.game
      (GameSceneState.mk 400 300 24 24 180
        (List.replicate 10 (Rect.mk 0 0 12 12)) 0)
      800 600 c1rs 40 kEsc := by
  rw [c1w4, c1w3_eval]
  norm_num [sceneUpdate, pauseUpdate, kEsc, setScene, sceneEnter,
    sceneExit, gameEnter, spawnCoins, spawnCoinsAux, c1rs, List.replicate,
    show Scene.game ≠ Scene.pause from by decide]

/-- Counterexample to claim C1: running the actual transition sequence
menu -> game -> pause -> game (Enter pressed, then one collecting
update, then Escape, then Escape again while paused), the game state
when pause was entered had score 10 and nine coins, but the state after
returning from pause has score 0 and ten fresh coins: returning from
pause does reset the coin/score state, contrary to the claim. -/
theorem pause_resume_resets_state_cex :
    c1w3.current = Scene.pause ∧ c1w3.g.score = 10 ∧
    c1w4.current = Scene.game ∧ c1w4.g.score = 0 ∧
    c1w4.g.score ≠ c1w3.g.score ∧ c1w4.g.coins ≠ c1w3.g.coins := by
  rw [c1w3_eval, c1w4_eval]
  refine ⟨rfl, rfl, rfl, rfl, by norm_num, ?_⟩
  simp [List.replicate]

/-- Amended claim C1: every transition that enters the game scene,
including pause -> game, invokes the game scene's enter() hook, which
resets the score to 0, recentres the player and regenerates the coins
from the random stream; so the state after returning from pause is the
freshly reset state, not the state at pause entry.  (Only the menu ->
game -> pause -> game sequence's claim of preservation is dropped; the
reset on re-entry from menu remains true.) -/
theorem unpause_invokes_enter_reset (w : World) (dt : ℝ)
    (hc : w.current = Scene.pause) (hk : w.keys.escape = true) :
    (sceneUpdate dt w).1.current = Scene.game ∧
    (sceneUpdate dt w).1.g.score = 0 ∧
    (sceneUpdate dt w).1.g.px = w.width / 2 ∧
    (sceneUpdate dt w).1.g.py = w.height / 2 ∧
    (sceneUpdate dt w).1.g.coins =
      (spawnCoins w.rs w.width w.height w.ri 10).1 := by
  unfold sceneUpdate
  rw [hc]
  unfold pauseUpdate
  rw [hk]
  simp only [if_true]
  have hne : Scene.game ≠ w.current := by rw [hc]; decide
  rw [setScene_of_ne hne]
  exact ⟨rfl, rfl, rfl, rfl, rfl⟩

/-- The world used to witness the amended C1: paused with score 10. -/
noncomputable def c1wit : World :=
  World.mk Scene.pause (GameSceneState.mk 388 288 24 24 180 [] 10)
    800 600 zeroRs 0 kEsc

/-- Witness for the amended C1 at the concrete paused world. -/
theorem unpause_invokes_enter_reset_witness :
    (sceneUpdate 0 c1wit).1.current = Scene.game ∧
    (sceneUpdate 0 c1wit).1.g.score = 0 ∧
    (sceneUpdate 0 c1wit).1.g.px = c1wit.width / 2 ∧
    (sceneUpdate 0 c1wit).1.g.py = c1wit.height / 2 ∧
    (sceneUpdate 0 c1wit).1.g.coins =
      (spawnCoins c1wit.rs c1wit.width c1wit.height c1wit.ri 10).1 :=
  unpause_invokes_enter_reset c1wit 0 rfl rfl

/-- The world of the C9 counterexample: game scene, Escape held, and
the single coin overlaps the player, so this update's collection
empties the coin list. -/
noncomputable def c9w : World :=
  World.mk Scene.game
    (GameSceneState.mk 388 288 24 24 180 [Rect.mk 400 300 12 12] 0)
    800 600 zeroRs 0 kEsc

/-- Counterexample to claim C9: a game-scene state with Escape in the
pressed-key set whose update does not end in the pause scene - the
collection empties the coin list, so after the transient transition to
pause the update continues to menu.  Hence it is not true that every
game-scene step with Escape held ends in pause. -/
theorem escape_alternation_cex :
    (sceneUpdate (1 / 60) c9w).1.current = Scene.menu ∧
    Scene.menu ≠ Scene.pause := by
  refine ⟨?_, by decide⟩
  norm_num [sceneUpdate, c9w, kEsc, zeroRs, gameUpdate, movedPlayerRect,
    dispX, dispY, axOf, ayOf, b2i, lenOf, jsOrOne, hypot, collectLoop,
    rectsOverlap, setScene, sceneEnter, sceneExit, min_def, max_def,
    show Scene.pause ≠ Scene.game from by decide,
    show Scene.menu ≠ Scene.pause from by decide]

/-- Amended claim C9: there is no edge detection on the cancel key, so
with Escape in the pressed-key set a game-scene step ends in pause
provided at least one coin remains after that step's collection (with
none remaining the update continues on to menu), and a pause-scene step
always goes back to game; holding Escape therefore alternates game and
pause on consecutive steps as long as coins remain. -/
theorem escape_toggles_scenes (w : World) (dt : ℝ) :
    (w.current = Scene.game → w.keys.escape = true →
      (collectLoop (movedPlayerRect dt w) w.g.coins).1 ≠ [] →
      (sceneUpdate dt w).1.current = Scene.pause) ∧
    (w.current = Scene.pause → w.keys.escape = true →
      (sceneUpdate dt w).1.current = Scene.game) := by
  constructor
  · intro hc hk hcoins
    unfold sceneUpdate
    rw [hc]
    simp only [gameUpdate, hk, if_true]
    rw [if_neg (fun h => hcoins (List.length_eq_zero.mp h))]
    exact setScene_current _ _
  · intro hc hk
    unfold sceneUpdate
    rw [hc]
    unfold pauseUpdate
    rw [hk]
    simp only [if_true]
    exact setScene_current _ _

/-- Worlds used to witness the amended C9: a game-scene state with
Escape held whose only coin is far from the player, and a paused state
with Escape held. -/
noncomputable def c9witG : World :=
  World.mk Scene.game
    (GameSceneState.mk 388 288 24 24 180 [Rect.mk 0 0 12 12] 0)
    800 600 zeroRs 0 kEsc

/-- Paused counterpart for the C9 witness. -/
noncomputable def c9witP : World :=
  World.mk Scene.pause
    (GameSceneState.mk 388 288 24 24 180 [Rect.mk 0 0 12 12] 0)
    800 600 zeroRs 0 kEsc

/-- Witness for the amended C9: with Escape held, one step from the
game scene (coin surviving collection) ends paused, and one step from
the pause scene ends back in the game scene. -/
theorem escape_toggles_scenes_witness :
    (sceneUpdate 0 c9witG).1.current = Scene.pause ∧
    (sceneUpdate 0 c9witP).1.current = Scene.game := by
  constructor
  · refine (escape_toggles_scenes c9witG 0).1 rfl rfl ?_
    norm_num [c9witG, kEsc, zeroRs, movedPlayerRect, dispX, dispY, axOf,
      ayOf, b2i, lenOf, jsOrOne, hypot, collectLoop, rectsOverlap,
      min_def, max_def]
  · exact (escape_toggles_scenes c9witP 0).2 rfl rfl

/-- Claim C10: when a single game-scene update both observes Escape
pressed and ends its collection with zero coins remaining, the update
performs two transitions in sequence - game -> pause then pause ->
menu - so the final scene is menu and the hook trace shows the pause
scene's enter and exit firing transiently in between. -/
theorem escape_and_cleared_double_transition (w : World) (dt : ℝ)
    (hc : w.current = Scene.game) (hk : w.keys.escape = true)
    (hcoins : (collectLoop (movedPlayerRect dt w) w.g.coins).1 = []) :
    (sceneUpdate dt w).1.current = Scene.menu ∧
    (sceneUpdate dt w).2 =
      [HookEvent.exitHook Scene.game, HookEvent.enterHook Scene.pause,
       HookEvent.exitHook Scene.pause, HookEvent.enterHook Scene.menu] := by
  unfold sceneUpdate
  rw [hc]
  simp only [gameUpdate, hk, if_true, hcoins, List.length_nil]
  norm_num [setScene, hc, sceneEnter, sceneExit,
    show Scene.pause ≠ Scene.game from by decide,
    show Scene.menu ≠ Scene.pause from by decide]

/-- The world used to witness C10: game scene, Escape held, single coin
overlapping the player so the collection clears the list. -/
noncomputable def c10w : World :=
  World.mk Scene.game
    (GameSceneState.mk 388 288 24 24 180 [Rect.mk 400 300 12 12] 0)
    800 600 zeroRs 0 kEsc

/-- Witness for C10 at the concrete cleared-while-escaping world. -/
theorem escape_and_cleared_double_transition_witness :
    (sceneUpdate 0 c10w).1.current = Scene.menu ∧
    (sceneUpdate 0 c10w).2 =
      [HookEvent.exitHook Scene.game, HookEvent.enterHook Scene.pause,
       HookEvent.exitHook Scene.pause, HookEvent.enterHook Scene.menu] := by
  refine escape_and_cleared_double_transition c10w 0 rfl rfl ?_
  norm_num [c10w, kEsc, zeroRs, movedPlayerRect, dispX, dispY, axOf,
    ayOf, b2i, lenOf, jsOrOne, hypot, collectLoop, rectsOverlap,
    min_def, max_def]

end Canopy
